import Mathlib

/-!
Verification development for the scheduling and generation core of the
`seq` algorithmic MIDI sequencer.

The Rust source is shallowly embedded:
* `u64`/`u8`/`u32`/`usize` become `Nat` (Rust `-` on unsigned integers is
  modelled by checked subtraction where debug builds would panic, and by
  plain truncated `Nat` subtraction where the source guards make underflow
  impossible);
* `i8`/`i16` become `Int` (with explicit wrapping where release-mode Rust
  would wrap);
* `f64` becomes `ℚ` with explicit truncation at every `as`-cast. Every
  floating-point quantity evaluated by a theorem below is exactly
  representable, so the rational model and the IEEE double computation of
  the source agree at those points;
* `Instant` wallclock reads become explicit `now : Nat` (microseconds)
  parameters threaded through the operations that call `Instant::now()`;
* `BinaryHeap<ScheduledEvent>` becomes a `List ScheduledEvent` regarded as
  a multiset: `push` appends, `pop` removes an element of minimal
  `time_micros` (the heap's `Ord` compares `time_micros` only, so any
  heap pop returns such an element).
-/

namespace Seq

/-- Rust `as`-cast of a nonnegative float to `u64`: truncation toward zero,
saturating at 0 for negative values. -/
def ratToU64 (q : ℚ) : Nat := (Int.floor q).toNat

/-- Rust float-to-`i16` `as`-cast: truncation toward zero, saturating at the
`i16` range. -/
def ratToI16 (q : ℚ) : Int :=
  max (-32768) (min 32767 (if 0 ≤ q then Int.floor q else Int.ceil q))

/-- Wrapping of a mathematical integer into the `i16` range, as release-mode
Rust `i16` addition does on overflow. -/
def wrap16 (z : Int) : Int := (z + 32768) % 65536 - 32768

/-- Rust `f64::clamp(lo, hi)` for `lo ≤ hi`. -/
def clampQ (x lo hi : ℚ) : ℚ := max lo (min x hi)

/-- Rust `i16::clamp(lo, hi)` for `lo ≤ hi`. -/
def clampZ (x lo hi : Int) : Int := max lo (min x hi)

/-- Timing information for the sequencer (`SequencerTiming`,
src/sequencer/mod.rs). `tempo` is the `f64` BPM modelled as a rational. -/
structure SequencerTiming where
  tempo : ℚ
  ppqn : Nat
  position_ticks : Nat
  beats_per_bar : Nat
  beat_unit : Nat
deriving DecidableEq

/-- Rust `SequencerTiming::default()`: 120 BPM, 24 PPQN, 4/4. -/
def SequencerTiming.default : SequencerTiming :=
  { tempo := 120, ppqn := 24, position_ticks := 0, beats_per_bar := 4, beat_unit := 4 }

/-- Rust `SequencerTiming::ticks_per_bar`. -/
def SequencerTiming.ticks_per_bar (t : SequencerTiming) : Nat :=
  t.ppqn * t.beats_per_bar

/-- Rust `SequencerTiming::ticks_per_beat`. -/
def SequencerTiming.ticks_per_beat (t : SequencerTiming) : Nat := t.ppqn

/-- Rust `SequencerTiming::ticks_to_micros`: `micros_per_beat = 60_000_000 / tempo`,
`micros_per_tick = micros_per_beat / ppqn`, result truncated to `u64`. -/
def SequencerTiming.ticks_to_micros (t : SequencerTiming) (ticks : Nat) : Nat :=
  let micros_per_beat : ℚ := 60000000 / t.tempo
  let micros_per_tick : ℚ := micros_per_beat / (t.ppqn : ℚ)
  ratToU64 ((ticks : ℚ) * micros_per_tick)

/-- Rust `SequencerTiming::micros_to_ticks`. -/
def SequencerTiming.micros_to_ticks (t : SequencerTiming) (micros : Nat) : Nat :=
  let micros_per_beat : ℚ := 60000000 / t.tempo
  let ticks_per_micro : ℚ := (t.ppqn : ℚ) / micros_per_beat
  ratToU64 ((micros : ℚ) * ticks_per_micro)

/-- Rust `SequencerTiming::reset`. -/
def SequencerTiming.reset (t : SequencerTiming) : SequencerTiming :=
  { t with position_ticks := 0 }

/-- Rust `SequencerTiming::ticks_to_next_bar`. -/
def SequencerTiming.ticks_to_next_bar (t : SequencerTiming) : Nat :=
  let into_bar := t.position_ticks % t.ticks_per_bar
  if into_bar = 0 then 0 else t.ticks_per_bar - into_bar

/-- Rust `SequencerTiming::ticks_to_next_beat`. -/
def SequencerTiming.ticks_to_next_beat (t : SequencerTiming) : Nat :=
  let into_beat := t.position_ticks % t.ticks_per_beat
  if into_beat = 0 then 0 else t.ticks_per_beat - into_beat

/-- Rust `MidiMessageType` (src/sequencer/scheduler.rs). -/
inductive MidiMessageType where
  | NoteOn
  | NoteOff
  | ControlChange
  | ProgramChange
  | PitchBend
deriving DecidableEq

/-- Rust `ScheduledEvent` (src/sequencer/scheduler.rs). -/
structure ScheduledEvent where
  time_micros : Nat
  time_ticks : Nat
  channel : Nat
  message_type : MidiMessageType
  data1 : Nat
  data2 : Nat
  track_index : Option Nat
deriving DecidableEq

/-- Rust `ScheduledEvent::note_on`. -/
def ScheduledEvent.note_on (time_ticks channel note velocity : Nat) : ScheduledEvent :=
  { time_micros := 0, time_ticks := time_ticks, channel := channel,
    message_type := MidiMessageType.NoteOn, data1 := note, data2 := velocity,
    track_index := none }

/-- Rust `ScheduledEvent::note_off`. -/
def ScheduledEvent.note_off (time_ticks channel note : Nat) : ScheduledEvent :=
  { time_micros := 0, time_ticks := time_ticks, channel := channel,
    message_type := MidiMessageType.NoteOff, data1 := note, data2 := 0,
    track_index := none }

/-- Rust `ScheduledEvent::with_track`. -/
def ScheduledEvent.with_track (e : ScheduledEvent) (track_index : Nat) : ScheduledEvent :=
  { e with track_index := some track_index }

/-- Rust `SchedulerConfig` (src/sequencer/scheduler.rs). -/
structure SchedulerConfig where
  lookahead_ms : Nat
  buffer_size : Nat
deriving DecidableEq

/-- Rust `SchedulerConfig::default()`. -/
def SchedulerConfig.default : SchedulerConfig :=
  { lookahead_ms := 50, buffer_size := 1024 }

/-- Rust `Scheduler` (src/sequencer/scheduler.rs). The `BinaryHeap` is modelled as
a list regarded as a multiset; `start_time : Option Nat` is the recorded
`Instant` in microseconds of wallclock time. -/
structure Scheduler where
  queue : List ScheduledEvent
  timing : SequencerTiming
  config : SchedulerConfig
  start_time : Option Nat
  position_micros : Nat
  playing : Bool
  timing_error_micros : Int
deriving DecidableEq

/-- Rust `Scheduler::new`. -/
def Scheduler.new : Scheduler :=
  { queue := [], timing := SequencerTiming.default, config := SchedulerConfig.default,
    start_time := none, position_micros := 0, playing := false, timing_error_micros := 0 }

/-- Rust `Scheduler::schedule`: fill in `time_micros` from the tick time at the
current tempo, then push onto the queue. -/
def Scheduler.schedule (s : Scheduler) (event : ScheduledEvent) : Scheduler :=
  { s with queue :=
      s.queue ++ [{ event with time_micros := s.timing.ticks_to_micros event.time_ticks }] }

/-- Rust `Scheduler::update_position`: wallclock elapsed since `start_time` becomes
the new position (`Instant::elapsed` is nonnegative; the runs considered have
`now` at or after the anchor, which `Nat` subtraction reflects). -/
def Scheduler.update_position (s : Scheduler) (now : Nat) : Scheduler :=
  match s.start_time with
  | some st =>
      { s with position_micros := now - st,
               timing := { s.timing with
                 position_ticks := s.timing.micros_to_ticks (now - st) } }
  | none => s

/-- Rust `Scheduler::recalculate_event_times`: re-derive `time_micros` for every
queued event at the current tempo (the source drains and re-pushes through
the heap; on the multiset view this is a map). -/
def Scheduler.recalculate_event_times (s : Scheduler) : Scheduler :=
  { s with queue :=
      s.queue.map (fun e => { e with time_micros := s.timing.ticks_to_micros e.time_ticks }) }

/-- Rust `Scheduler::set_tempo`: record position if playing, clamp the tempo to
[20, 300], recalculate all queued event times. -/
def Scheduler.set_tempo (s : Scheduler) (now : Nat) (tempo : ℚ) : Scheduler :=
  let s1 := if s.playing then s.update_position now else s
  let s2 := { s1 with timing := { s1.timing with tempo := clampQ tempo 20 300 } }
  s2.recalculate_event_times

/-- Rust `Scheduler::start`. -/
def Scheduler.start (s : Scheduler) (now : Nat) : Scheduler :=
  { s with start_time := some now, playing := true, timing_error_micros := 0 }

/-- Rust `Scheduler::stop`. -/
def Scheduler.stop (s : Scheduler) : Scheduler :=
  { s with playing := false, start_time := none, position_micros := 0,
           timing := s.timing.reset, timing_error_micros := 0 }

/-- Rust `Scheduler::pause`: freeze the position and drop the wallclock anchor. -/
def Scheduler.pause (s : Scheduler) (now : Nat) : Scheduler :=
  if s.playing then
    let s1 := s.update_position now
    { s1 with playing := false, start_time := none }
  else s

/-- Rust `Scheduler::resume`: re-anchor the wallclock baseline at `now`. -/
def Scheduler.resume (s : Scheduler) (now : Nat) : Scheduler :=
  if s.playing then s else { s with start_time := some now, playing := true }

/-- One `BinaryHeap::pop` on the multiset view: remove an element of minimal
`time_micros` (the heap's `Ord` compares `time_micros` only, so this is the
only thing a pop is guaranteed to return; ties are broken leftmost here). -/
def popMin : List ScheduledEvent → Option (ScheduledEvent × List ScheduledEvent)
  | [] => none
  | e :: rest =>
    match popMin rest with
    | none => some (e, [])
    | some (m, rest') =>
        if e.time_micros ≤ m.time_micros then some (e, rest)
        else some (m, e :: rest')

/-- The `while let Some(event) = queue.peek()` loop shared by `poll` and
`poll_window`: pop events while the head is due at or before `target`.
The fuel is the queue length, which bounds the number of iterations since
each pop removes one element. -/
def pollLoopAux : Nat → Nat → List ScheduledEvent → List ScheduledEvent × List ScheduledEvent
  | 0, _, q => ([], q)
  | fuel + 1, target, q =>
    match popMin q with
    | none => ([], q)
    | some (m, rest) =>
        if m.time_micros ≤ target then
          let res := pollLoopAux fuel target rest
          (m :: res.1, res.2)
        else ([], q)

/-- Drain all queued events due at or before `target`. -/
def pollLoop (target : Nat) (q : List ScheduledEvent) : List ScheduledEvent × List ScheduledEvent :=
  pollLoopAux q.length target q

/-- Rust `Scheduler::poll`: update position from wallclock, then pop all events due
within the lookahead window. Returns the popped events and the new state. -/
def Scheduler.poll (s : Scheduler) (now : Nat) : List ScheduledEvent × Scheduler :=
  if s.playing = false then ([], s)
  else
    let s1 := s.update_position now
    let lookahead_micros := s1.config.lookahead_ms * 1000
    let target_time := s1.position_micros + lookahead_micros
    let res := pollLoop target_time s1.queue
    (res.1, { s1 with queue := res.2 })

/-- Rust `Scheduler::poll_window`: like `poll` with an explicit window. -/
def Scheduler.poll_window (s : Scheduler) (window_micros : Nat) (now : Nat) :
    List ScheduledEvent × Scheduler :=
  if s.playing = false then ([], s)
  else
    let s1 := s.update_position now
    let target_time := s1.position_micros + window_micros
    let res := pollLoop target_time s1.queue
    (res.1, { s1 with queue := res.2 })

/-- Rust `MidiEvent` (src/generators/mod.rs): generator output, pre-schedule. -/
structure MidiEvent where
  note : Nat
  velocity : Nat
  start_tick : Nat
  duration_ticks : Nat
  channel : Nat
deriving DecidableEq

/-- Rust `MidiEvent::new` (channel defaults to 0). -/
def MidiEvent.new (note velocity start_tick duration_ticks : Nat) : MidiEvent :=
  { note := note, velocity := velocity, start_tick := start_tick,
    duration_ticks := duration_ticks, channel := 0 }

/-- Rust `GeneratorContext` (src/generators/mod.rs). The `key : Key` field is not
consulted by any operation modelled here (only generators read it) and is
omitted. -/
structure GeneratorContext where
  tempo : ℚ
  ppqn : Nat
  beat : Nat
  tick : Nat
  bar : Nat
  beats_per_bar : Nat
  ticks_to_generate : Nat
  swing : ℚ
deriving DecidableEq

/-- Rust `GeneratorContext::default()` without the key. -/
def GeneratorContext.default : GeneratorContext :=
  { tempo := 120, ppqn := 24, beat := 0, tick := 0, bar := 0,
    beats_per_bar := 4, ticks_to_generate := 24, swing := 0 }

/-- A runtime panic of the Rust source: debug-mode unsigned subtraction
overflow, or remainder by zero (which panics in every build mode). -/
inductive RtPanic where
  | subOverflow
  | remZero
deriving DecidableEq

/-- Checked `u64` subtraction: `a - b` panics in debug builds when `b > a`. -/
def csub (a b : Nat) : Except RtPanic Nat :=
  if b ≤ a then Except.ok (a - b) else Except.error RtPanic.subOverflow

/-- Checked `u64` remainder: `a % b` panics when `b = 0`. -/
def cmod (a b : Nat) : Except RtPanic Nat :=
  if b = 0 then Except.error RtPanic.remZero else Except.ok (a % b)

/-- Rust `ClipState` (src/sequencer/clip.rs). -/
inductive ClipState where
  | Stopped
  | Playing
  | Queued
  | Stopping
deriving DecidableEq

/-- Rust `ClipMode` (src/sequencer/clip.rs). -/
inductive ClipMode where
  | OneShot
  | Loop
  | LoopCount (n : Nat)
  | PingPong
deriving DecidableEq

/-- Rust `ClipNote` (src/sequencer/clip.rs). -/
structure ClipNote where
  start_tick : Nat
  duration : Nat
  note : Nat
  velocity : Nat
deriving DecidableEq

/-- Rust `ClipType` (src/sequencer/clip.rs). -/
inductive ClipType where
  | Sequenced
  | Generated
  | Hybrid
deriving DecidableEq

/-- Rust `Clip` (src/sequencer/clip.rs). The `generator : Option<Box<dyn Generator>>`
field is a dynamically dispatched stateful producer; its output for the
current window enters `Clip.generate` as an explicit argument instead, and
the `has_generator` flag records whether a generator is attached. -/
structure Clip where
  name : String
  clip_type : ClipType
  mode : ClipMode
  state : ClipState
  length_ticks : Nat
  loop_start : Nat
  loop_end : Nat
  notes : List ClipNote
  has_generator : Bool
  position : Nat
  loop_count : Nat
  variation : ℚ
  reverse : Bool
deriving DecidableEq

/-- Rust `Clip::new`: an empty Sequenced clip in Loop mode. -/
def Clip.new (name : String) (length_ticks : Nat) : Clip :=
  { name := name, clip_type := ClipType.Sequenced, mode := ClipMode.Loop,
    state := ClipState.Stopped, length_ticks := length_ticks, loop_start := 0,
    loop_end := 0, notes := [], has_generator := false, position := 0,
    loop_count := 0, variation := 0, reverse := false }

/-- Rust `Clip::set_mode`. -/
def Clip.set_mode (c : Clip) (mode : ClipMode) : Clip := { c with mode := mode }

/-- Rust `Clip::set_loop_points`: both points are clamped to the clip length and 0
keeps the end-of-clip meaning; `start < end` is not enforced. -/
def Clip.set_loop_points (c : Clip) (start e : Nat) : Clip :=
  { c with loop_start := min start c.length_ticks,
           loop_end := if e = 0 then 0 else min e c.length_ticks }

/-- Rust `Clip::effective_loop_end`: 0 means the clip length. -/
def Clip.effective_loop_end (c : Clip) : Nat :=
  if c.loop_end = 0 then c.length_ticks else c.loop_end

/-- Rust `Clip::play`. -/
def Clip.play (c : Clip) : Clip := { c with state := ClipState.Playing }

/-- Rust `Clip::advance_position` with every unsigned subtraction and remainder
checked as the Rust operators are. `loop_length` is computed up front, so a
loop start past the loop end already overflows there. -/
def Clip.advance_position (c : Clip) (ticks loop_end : Nat) :
    Except RtPanic Clip := do
  let _loop_length ← csub loop_end c.loop_start
  if c.reverse then
    if c.position < ticks then
      match c.mode with
      | ClipMode.PingPong =>
          Except.ok { c with reverse := false,
                             position := c.loop_start + (ticks - c.position) }
      | _ => do
          let p ← csub loop_end (ticks - c.position)
          Except.ok { c with position := p }
    else
      Except.ok { c with position := c.position - ticks }
  else
    let pos := c.position + ticks
    if loop_end ≤ pos then do
      let c1 ←
        match c.mode with
        | ClipMode.OneShot =>
            Except.ok { c with state := ClipState.Stopped, position := 0 }
        | ClipMode.Loop => do
            let d ← csub pos c.loop_start
            let r ← cmod d _loop_length
            Except.ok { c with position := c.loop_start + r,
                               loop_count := c.loop_count + 1 }
        | ClipMode.LoopCount maxLoops =>
            if maxLoops ≤ c.loop_count + 1 then
              Except.ok { c with loop_count := c.loop_count + 1,
                                 state := ClipState.Stopped, position := 0 }
            else do
              let d ← csub pos c.loop_start
              let r ← cmod d _loop_length
              Except.ok { c with loop_count := c.loop_count + 1,
                                 position := c.loop_start + r }
        | ClipMode.PingPong => do
            let overshoot ← csub pos loop_end
            let p ← csub loop_end overshoot
            Except.ok { c with reverse := true, position := p,
                               loop_count := c.loop_count + 1 }
      if c1.state = ClipState.Stopping then
        Except.ok { c1 with state := ClipState.Stopped, position := 0 }
      else
        Except.ok c1
    else
      Except.ok { c with position := pos }

/-- The per-note body of `Clip::generate_sequenced`: compute the (possibly
reversed) note start, then filter against the loop region and the current
window, emitting a window-relative event. -/
def Clip.sequencedNote (c : Clip) (ticks loop_end : Nat) (note : ClipNote) :
    Except RtPanic (Option MidiEvent) := do
  let start := c.position
  let note_start ←
    if c.reverse then do
      let a ← csub loop_end note.start_tick
      csub a note.duration
    else
      Except.ok note.start_tick
  if c.loop_start ≤ note_start ∧ note_start < loop_end then
    if start ≤ note_start ∧ note_start < start + ticks then
      Except.ok (some (MidiEvent.new note.note note.velocity (note_start - start) note.duration))
    else
      Except.ok none
  else
    Except.ok none

/-- Rust `Clip::generate_sequenced`: emit the static notes that fall inside the
window `[position, position + ticks)`. -/
def Clip.generate_sequenced (c : Clip) (ticks loop_end : Nat) :
    Except RtPanic (List MidiEvent) := do
  let opts ← c.notes.mapM (c.sequencedNote ticks loop_end)
  Except.ok (opts.filterMap id)

/-- Rust `Clip::mix_events` for Hybrid clips: sequenced events always, each
generated event kept when the rng draw is below `variation`. The rng draws
(`rng.gen::<f64>()`) enter as the explicit `draws` stream. -/
def Clip.mix_events (c : Clip) (sequenced generated : List MidiEvent)
    (draws : List ℚ) : List MidiEvent :=
  sequenced ++ ((generated.zip draws).filterMap
    (fun p => if p.2 < c.variation then some p.1 else none))

/-- Rust `Clip::generate`: emit events for the window per clip kind, then advance
the position. `genEvents` is the window output of the attached dynamic
generator (consulted by the Generated and Hybrid kinds only) and `draws` the
rng stream of `mix_events`. -/
def Clip.generate (c : Clip) (context : GeneratorContext)
    (genEvents : List MidiEvent) (draws : List ℚ) :
    Except RtPanic (List MidiEvent × Clip) := do
  if c.state ≠ ClipState.Playing ∧ c.state ≠ ClipState.Stopping then
    Except.ok ([], c)
  else
    let ticks := context.ticks_to_generate
    let loop_end := c.effective_loop_end
    let events ←
      match c.clip_type with
      | ClipType.Sequenced => c.generate_sequenced ticks loop_end
      | ClipType.Generated =>
          Except.ok (if c.has_generator then genEvents else [])
      | ClipType.Hybrid => do
          let sequenced ← c.generate_sequenced ticks loop_end
          if c.has_generator then
            Except.ok (c.mix_events sequenced genEvents draws)
          else
            Except.ok sequenced
    let c1 ← c.advance_position ticks loop_end
    Except.ok (events, c1)

/-- Rust `TrackState` (src/sequencer/track.rs). -/
inductive TrackState where
  | Active
  | Muted
  | Soloed
deriving DecidableEq

/-- Rust `TrackConfig` (src/sequencer/track.rs). -/
structure TrackConfig where
  name : String
  channel : Nat
  transpose : Int
  swing : ℚ
  velocity_scale : ℚ
  velocity_offset : Int
  note_min : Nat
  note_max : Nat
deriving DecidableEq

/-- Rust `TrackConfig::default()`. -/
def TrackConfig.default : TrackConfig :=
  { name := "Track", channel := 0, transpose := 0, swing := 0,
    velocity_scale := 1, velocity_offset := 0, note_min := 0, note_max := 127 }

/-- Rust `TrackConfig::new(name)`. -/
def TrackConfig.new (name : String) : TrackConfig :=
  { TrackConfig.default with name := name }

/-- Rust `Track` (src/sequencer/track.rs). Its `generator : Option<Box<dyn
Generator>>` is dynamically dispatched; the raw events the generator and the
active clip produce for a window enter `Track.generate` as an explicit
argument. -/
structure Track where
  config : TrackConfig
  state : TrackState
  active_clip : Option Nat
  clips : List Clip
  clip_state : ClipState
  index : Nat
  pending_solo : Bool
deriving DecidableEq

/-- Rust `Track::new`. -/
def Track.new (index : Nat) (config : TrackConfig) : Track :=
  { config := config, state := TrackState.Active, active_clip := none,
    clips := [], clip_state := ClipState.Stopped, index := index,
    pending_solo := false }

/-- Rust `Track::set_state`. -/
def Track.set_state (t : Track) (state : TrackState) : Track :=
  { t with state := state }

/-- Rust `Track::is_muted`. -/
def Track.is_muted (t : Track) : Bool := t.state = TrackState.Muted

/-- Rust `Track::is_soloed`. -/
def Track.is_soloed (t : Track) : Bool := t.state = TrackState.Soloed

/-- Rust `Track::toggle_mute`. -/
def Track.toggle_mute (t : Track) : Track :=
  { t with state := if t.state = TrackState.Muted then TrackState.Active
                    else TrackState.Muted }

/-- Rust `Track::toggle_solo`. -/
def Track.toggle_solo (t : Track) : Track :=
  { t with state := if t.state = TrackState.Soloed then TrackState.Active
                    else TrackState.Soloed }

/-- Rust `Track::process_event`: transpose with range drop, note-range filter,
velocity scale/offset with clamp into [1, 127], channel rewrite. The velocity
arithmetic is `(velocity as f64 * velocity_scale) as i16 + velocity_offset as
i16` (the float cast saturates; the `i16` addition wraps in release builds),
then `clamp(1, 127) as u8`. -/
def Track.process_event (t : Track) (event : MidiEvent) : Option MidiEvent :=
  let transposed : Int := (event.note : Int) + t.config.transpose
  if transposed < 0 ∨ 127 < transposed then none
  else
    let note1 := transposed.toNat
    if note1 < t.config.note_min ∨ t.config.note_max < note1 then none
    else
      let scaled : Int :=
        wrap16 (ratToI16 ((event.velocity : ℚ) * t.config.velocity_scale)
                  + t.config.velocity_offset)
      some { event with
        note := note1,
        velocity := (clampZ scaled 1 127).toNat,
        channel := t.config.channel }

/-- Rust `Track::apply_swing`: delay off-beat notes (second half of the beat) by
`(ppqn/2) * swing * 0.5` ticks, truncated. -/
def Track.apply_swing (t : Track) (tick ppqn : Nat) : Nat :=
  if t.config.swing = 0 then tick
  else
    let beat_ticks := ppqn
    let half_beat := beat_ticks / 2
    let tick_in_beat := tick % beat_ticks
    if half_beat ≤ tick_in_beat then
      tick + ratToU64 ((half_beat : ℚ) * t.config.swing * (1 / 2))
    else tick

/-- Rust `Track::generate`: nothing when muted; otherwise every raw event from the
generator and the active clip (in source order, entering as `raws`) runs
through `process_event`, and swing is applied to every survivor. -/
def Track.generate (t : Track) (context : GeneratorContext)
    (raws : List MidiEvent) : List MidiEvent :=
  if t.state = TrackState.Muted then []
  else
    (raws.filterMap t.process_event).map
      (fun e => { e with start_tick := t.apply_swing e.start_tick context.ppqn })

/-- Rust `Track::generate_scheduled`: for each surviving event push a NoteOn at
`base_tick + start_tick` and a NoteOff at `base_tick + start_tick +
duration_ticks`, both tagged with the track index. -/
def Track.generate_scheduled (t : Track) (context : GeneratorContext)
    (raws : List MidiEvent) (base_tick : Nat) : List ScheduledEvent :=
  (t.generate context raws).foldl
    (fun scheduled e =>
      let start_tick := base_tick + e.start_tick
      let end_tick := start_tick + e.duration_ticks
      scheduled ++
        [(ScheduledEvent.note_on start_tick e.channel e.note e.velocity).with_track t.index,
         (ScheduledEvent.note_off end_tick e.channel e.note).with_track t.index])
    []

/-- Rust `TrackManager` (src/sequencer/track.rs): tracks plus the cached
`has_solo` flag. -/
structure TrackManager where
  tracks : List Track
  has_solo : Bool
deriving DecidableEq

/-- Rust `TrackManager::new`. -/
def TrackManager.new : TrackManager := { tracks := [], has_solo := false }

/-- Rust `TrackManager::add_track` (a new track starts Active). -/
def TrackManager.add_track (m : TrackManager) (config : TrackConfig) : TrackManager :=
  { m with tracks := m.tracks ++ [Track.new m.tracks.length config] }

/-- Rust `TrackManager::update_solo_state`: refresh the cached flag. -/
def TrackManager.update_solo_state (m : TrackManager) : TrackManager :=
  { m with has_solo := m.tracks.any Track.is_soloed }

/-- Replace track `i` by `f` applied to it, when it exists (`tracks.get_mut`). -/
def TrackManager.modifyTrack (m : TrackManager) (i : Nat) (f : Track → Track) : TrackManager :=
  match m.tracks.get? i with
  | some t => { m with tracks := m.tracks.set i (f t) }
  | none => m

/-- Rust `TrackManager::set_track_state`: set the state, then refresh `has_solo`. -/
def TrackManager.set_track_state (m : TrackManager) (i : Nat) (state : TrackState) : TrackManager :=
  match m.tracks.get? i with
  | some _ => (m.modifyTrack i (fun t => t.set_state state)).update_solo_state
  | none => m

/-- Rust `TrackManager::toggle_mute`. -/
def TrackManager.toggle_mute (m : TrackManager) (i : Nat) : TrackManager :=
  match m.tracks.get? i with
  | some _ => (m.modifyTrack i Track.toggle_mute).update_solo_state
  | none => m

/-- Rust `TrackManager::toggle_solo`. -/
def TrackManager.toggle_solo (m : TrackManager) (i : Nat) : TrackManager :=
  match m.tracks.get? i with
  | some _ => (m.modifyTrack i Track.toggle_solo).update_solo_state
  | none => m

/-- Mutating a track's state through `TrackManager::track_mut` followed by
`Track::set_state`: the cached `has_solo` flag is not refreshed on this path. -/
def TrackManager.set_state_via_track_mut (m : TrackManager) (i : Nat)
    (state : TrackState) : TrackManager :=
  m.modifyTrack i (fun t => t.set_state state)

/-- Rust `TrackManager::should_output`: false for a missing or Muted track; when
the cached `has_solo` flag is set, only Soloed tracks output. -/
def TrackManager.should_output (m : TrackManager) (i : Nat) : Bool :=
  match m.tracks.get? i with
  | some t =>
      if t.is_muted then false
      else if m.has_solo then t.is_soloed
      else true
  | none => false

/-- The mutations of the claim that go through the manager-level API (these
all refresh the cached solo flag, unlike `track_mut` + `set_state`). -/
inductive MgrOp where
  | addTrack (config : TrackConfig)
  | setTrackState (i : Nat) (state : TrackState)
  | toggleMute (i : Nat)
  | toggleSolo (i : Nat)
deriving DecidableEq

/-- Apply one manager-level operation. -/
def MgrOp.apply (m : TrackManager) : MgrOp → TrackManager
  | MgrOp.addTrack config => m.add_track config
  | MgrOp.setTrackState i state => m.set_track_state i state
  | MgrOp.toggleMute i => m.toggle_mute i
  | MgrOp.toggleSolo i => m.toggle_solo i

/-- Run a sequence of manager-level operations from `TrackManager::new`. -/
def TrackManager.run (ops : List MgrOp) : TrackManager :=
  ops.foldl MgrOp.apply TrackManager.new

/-- Rust `QuantizeMode` (src/sequencer/trigger.rs). -/
inductive QuantizeMode where
  | Immediate
  | Tick
  | Beat
  | Bar
  | Beats (n : Nat)
  | Bars (n : Nat)
  | Phrase
deriving DecidableEq

/-- Rust `QuantizeMode::ticks_until`: ticks from the current position to the point
where the trigger fires. The Phrase arm uses a phrase of `ticks_per_bar * 4`:
the comment in the source reads `Phrase = 4 bars by default`, and no
configured phrase length reaches this function. -/
def QuantizeMode.ticks_until (q : QuantizeMode) (timing : SequencerTiming) : Nat :=
  match q with
  | QuantizeMode.Immediate => 0
  | QuantizeMode.Tick => 1
  | QuantizeMode.Beat => timing.ticks_to_next_beat
  | QuantizeMode.Bar => timing.ticks_to_next_bar
  | QuantizeMode.Beats n =>
      timing.ticks_to_next_beat + (n - 1) * timing.ticks_per_beat
  | QuantizeMode.Bars n =>
      timing.ticks_to_next_bar + (n - 1) * timing.ticks_per_bar
  | QuantizeMode.Phrase =>
      let phrase_length := timing.ticks_per_bar * 4
      let position_in_phrase := timing.position_ticks % phrase_length
      if position_in_phrase = 0 then 0 else phrase_length - position_in_phrase

/-- Rust `TriggerQueue` (src/sequencer/trigger.rs), restricted to the fields the
phrase-quantization claim touches (the pending-trigger deque is untouched by
`set_phrase_bars`). -/
structure TriggerQueue where
  default_quantize : QuantizeMode
  phrase_bars : Nat
deriving DecidableEq

/-- Rust `TriggerQueue::new`. -/
def TriggerQueue.new : TriggerQueue :=
  { default_quantize := QuantizeMode.Bar, phrase_bars := 4 }

/-- Rust `TriggerQueue::set_phrase_bars`: store the phrase length (at least 1). -/
def TriggerQueue.set_phrase_bars (tq : TriggerQueue) (bars : Nat) : TriggerQueue :=
  { tq with phrase_bars := max bars 1 }

/-- Modelled from the spec: the quantize-mode table's Phrase row, `gap to next
multiple of (phrase_bars · ticks_per_bar)` for the configured phrase length.
The source never consults `phrase_bars`, so the specified behaviour exists
only here, for comparison with `QuantizeMode.ticks_until`. -/
def phraseGapSpec (tq : TriggerQueue) (timing : SequencerTiming) : Nat :=
  let phrase_length := tq.phrase_bars * timing.ticks_per_bar
  let position_in_phrase := timing.position_ticks % phrase_length
  if position_in_phrase = 0 then 0 else phrase_length - position_in_phrase

/-- The `while remainder.len() > 1` loop of `generate_euclidean`
(src/generators/arpeggio.rs and src/generators/drums.rs, identical): append
`remainder[i]` onto `pattern[i]` for `i < min_len`, then the unconsumed tail
of the longer list becomes the new remainder. The fuel bounds the iteration
count; for the inputs the guarded entry point supplies, `steps` iterations
always suffice, because the total number of blocks starts at `steps` and
strictly decreases every iteration. -/
def bjorklundLoop : Nat → List (List Bool) → List (List Bool) →
    List (List Bool) × List (List Bool)
  | 0, pattern, remainder => (pattern, remainder)
  | fuel + 1, pattern, remainder =>
    if 1 < remainder.length then
      let min_len := min pattern.length remainder.length
      let merged := List.zipWith (fun a b => a ++ b)
        (pattern.take min_len) (remainder.take min_len)
      if min_len < pattern.length then
        bjorklundLoop fuel merged (pattern.drop min_len)
      else
        bjorklundLoop fuel merged (remainder.drop min_len)
    else (pattern, remainder)

/-- Rust `generate_euclidean(hits, steps)` (`ArpeggioGenerator` and `DrumGenerator`
carry the same function): Bjorklund's algorithm starting from `hits`
singleton `[true]` blocks and `steps - hits` singleton `[false]` blocks,
flattening pattern then remainder. -/
def generate_euclidean (hits steps : Nat) : List Bool :=
  if steps = 0 then []
  else if steps ≤ hits then List.replicate steps true
  else if hits = 0 then List.replicate steps false
  else
    let res := bjorklundLoop steps (List.replicate hits [true])
      (List.replicate (steps - hits) [false])
    res.1.flatten ++ res.2.flatten

/-! Concrete fixtures used by the scenario theorems and witnesses. -/

/-- A window of 2 ticks at the default context (PPQN 24, 4/4). -/
def ctx2 : GeneratorContext := { GeneratorContext.default with ticks_to_generate := 2 }

/-- The S5 clip: length 48, PingPong mode, Playing, at position 47. -/
def ppClip : Clip :=
  { Clip.new ("PingPong") 48 with
    mode := ClipMode.PingPong, state := ClipState.Playing, position := 47 }

/-- The scheduler of scenario S2 right after the NoteOn at tick 24 was
scheduled under tempo 60. -/
def s2Sched : Scheduler :=
  (Scheduler.new.set_tempo 0 60).schedule (ScheduledEvent.note_on 24 0 60 100)

/-- The queued S2 event after the tempo change to 120. -/
def s2Event : ScheduledEvent :=
  { time_micros := 500000, time_ticks := 24, channel := 0,
    message_type := MidiMessageType.NoteOn, data1 := 60, data2 := 100,
    track_index := none }

/-- A default-config track with index 0. -/
def tr0 : Track := Track.new 0 TrackConfig.default

/-- A velocity-0 note event (the data model's note-off denotation). -/
def vel0Event : MidiEvent := MidiEvent.new 60 0 0 24

/-- A velocity-100 event at window offset 5. -/
def rawEvent : MidiEvent := MidiEvent.new 60 100 5 24

/-- The timing state of the C7 failing input: default 4/4 at PPQN 24
(ticks_per_bar 96), at position 384 ticks. -/
def tm384 : SequencerTiming := { SequencerTiming.default with position_ticks := 384 }

/-- A trigger queue configured for 8-bar phrases. -/
def tq8 : TriggerQueue := TriggerQueue.new.set_phrase_bars 8

/-- The manager state reached by adding two default tracks and then soloing
track 0 through `track_mut` + `Track::set_state` (bypassing the solo cache). -/
def staleMgr : TrackManager :=
  ((TrackManager.new.add_track TrackConfig.default).add_track
    TrackConfig.default).set_state_via_track_mut 0 TrackState.Soloed

/-- The NoteOn half of the scheduled pair for a surviving event. -/
def pairOn (t : Track) (base : Nat) (e : MidiEvent) : ScheduledEvent :=
  (ScheduledEvent.note_on (base + e.start_tick) e.channel e.note e.velocity).with_track t.index

/-- The NoteOff half of the scheduled pair for a surviving event. -/
def pairOff (t : Track) (base : Nat) (e : MidiEvent) : ScheduledEvent :=
  (ScheduledEvent.note_off (base + e.start_tick + e.duration_ticks) e.channel e.note).with_track
    t.index

/-- The operation sequence of the C5 witness: two default tracks, then solo
track 0 through the manager API. -/
def soloOps : List MgrOp :=
  [MgrOp.addTrack TrackConfig.default, MgrOp.addTrack TrackConfig.default,
   MgrOp.toggleSolo 0]

end Seq

namespace Seq

/-- C1 (general part): after `set_tempo`, the queue holds the same tick times
and every queued event's `time_micros` is `ticks_to_micros` of its
`time_ticks` under the post-change timing; C1 (S2 instance): the NoteOn at
tick 24 scheduled under tempo 60 carries `time_micros` 1,000,000, and after
`set_tempo(120)` it carries exactly 500,000 with `time_ticks` still 24. -/
theorem C1_tempo_reconsistency :
    (∀ (s : Scheduler) (now : Nat) (tempo : ℚ),
      (s.set_tempo now tempo).queue.map ScheduledEvent.time_ticks =
        s.queue.map ScheduledEvent.time_ticks
      ∧ ∀ e ∈ (s.set_tempo now tempo).queue,
          e.time_micros = (s.set_tempo now tempo).timing.ticks_to_micros e.time_ticks)
    ∧ s2Sched.queue.map (fun e => (e.time_micros, e.time_ticks)) = [(1000000, 24)]
    ∧ (s2Sched.set_tempo 0 120).queue.map (fun e => (e.time_micros, e.time_ticks)) =
        [(500000, 24)] := by
  refine ⟨fun s now tempo => ⟨?_, ?_⟩, ?_, ?_⟩
  · simp [Scheduler.set_tempo, Scheduler.recalculate_event_times, Scheduler.update_position]
    split <;> [skip; rfl]
    split <;> rfl
  · intro e he
    simp only [Scheduler.set_tempo, Scheduler.recalculate_event_times, List.mem_map] at he ⊢
    obtain ⟨x, _, rfl⟩ := he
    rfl
  · simp [s2Sched, Scheduler.new, Scheduler.set_tempo, Scheduler.schedule,
      Scheduler.update_position, Scheduler.recalculate_event_times,
      SequencerTiming.default, SchedulerConfig.default, clampQ,
      ScheduledEvent.note_on, SequencerTiming.ticks_to_micros, ratToU64]
    norm_num
    rfl
  · simp [s2Sched, Scheduler.new, Scheduler.set_tempo, Scheduler.schedule,
      Scheduler.update_position, Scheduler.recalculate_event_times,
      SequencerTiming.default, SchedulerConfig.default, clampQ,
      ScheduledEvent.note_on, SequencerTiming.ticks_to_micros, ratToU64]
    norm_num
    rfl

/-- Witness for C1: the theorem applied to the S2 scheduler after the change
to tempo 120, at the queued event itself. -/
theorem C1_tempo_reconsistency_witness :
    s2Event.time_micros =
      (s2Sched.set_tempo 0 120).timing.ticks_to_micros s2Event.time_ticks := by
  refine (C1_tempo_reconsistency.1 s2Sched 0 120).2 s2Event ?_
  have hq : (s2Sched.set_tempo 0 120).queue = [s2Event] := by
    simp [s2Sched, s2Event, Scheduler.new, Scheduler.set_tempo, Scheduler.schedule,
      Scheduler.update_position, Scheduler.recalculate_event_times,
      SequencerTiming.default, SchedulerConfig.default, clampQ,
      ScheduledEvent.note_on, SequencerTiming.ticks_to_micros, ratToU64]
    norm_num
    rfl
  rw [hq]
  exact List.mem_singleton.2 rfl

/-- C3: the code drops the frozen position on resume. In the concrete run —
start at wallclock 0, poll at 1,000,000 (position 1,000,000), pause at
1,000,000 (position frozen at 1,000,000), resume at 2,000,000, poll at
2,001,000 — the scheduler is playing with `position_micros` 1,000 (the
elapsed time since resume alone): not the 1,001,000 the claim requires, and
strictly below the 1,000,000 observed while playing before the pause, so
`position_micros` decreased across poll observations in the Playing state. -/
theorem C3_resume_loses_position :
    (((Scheduler.new.start 0).poll 1000000).2.pause 1000000).position_micros = 1000000
    ∧ (((((Scheduler.new.start 0).poll 1000000).2.pause 1000000).resume
          2000000).poll 2001000).2.position_micros = 1000
    ∧ (((((Scheduler.new.start 0).poll 1000000).2.pause 1000000).resume
          2000000).poll 2001000).2.playing = true
    ∧ (1000 : Nat) ≠ 1000000 + 1000
    ∧ (1000 : Nat) < 1000000 := by
  refine ⟨?_, ?_, ?_, by decide, by decide⟩
  · simp [Scheduler.new, Scheduler.start, Scheduler.poll, Scheduler.pause,
      Scheduler.update_position, pollLoop, pollLoopAux, popMin,
      SequencerTiming.default, SchedulerConfig.default]
  · simp [Scheduler.new, Scheduler.start, Scheduler.poll, Scheduler.pause,
      Scheduler.resume, Scheduler.update_position, pollLoop, pollLoopAux, popMin,
      SequencerTiming.default, SchedulerConfig.default]
  · simp [Scheduler.new, Scheduler.start, Scheduler.poll, Scheduler.pause,
      Scheduler.resume, Scheduler.update_position, pollLoop, pollLoopAux, popMin,
      SequencerTiming.default, SchedulerConfig.default]

/-- C6 (scenario S5): a Playing PingPong clip of length 48 at position 47,
generating a 2-tick window, reflects — `reverse` becomes true, position
becomes 47 again, `loop_count` becomes 1 — and a second 2-tick window walks
backwards to position 45 with `reverse` still true. -/
theorem C6_pingpong_reflection :
    ∃ c1 c2 : Clip,
      ppClip.generate ctx2 [] [] = Except.ok ([], c1)
      ∧ c1.reverse = true ∧ c1.position = 47 ∧ c1.loop_count = 1
      ∧ c1.generate ctx2 [] [] = Except.ok ([], c2)
      ∧ c2.reverse = true ∧ c2.position = 45 := by
  refine ⟨{ ppClip with reverse := true, position := 47, loop_count := 1 },
          { ppClip with reverse := true, position := 45, loop_count := 1 }, ?_⟩
  exact ⟨rfl, rfl, rfl, rfl, rfl, rfl, rfl⟩

/-- C7: the failing input of the phrase-quantization claim. With the default
4/4 timing at PPQN 24 and position 384 ticks, and a trigger queue configured
via `set_phrase_bars(8)`, the source's `ticks_until` for Phrase returns 0
(384 is a multiple of its hard-coded 4-bar phrase of 384 ticks), while the
specified gap to the next multiple of `phrase_bars * ticks_per_bar = 768`
is 384. -/
theorem C7_phrase_bars_unused :
    QuantizeMode.ticks_until QuantizeMode.Phrase tm384 = 0
    ∧ phraseGapSpec tq8 tm384 = 384
    ∧ tq8.phrase_bars = 8
    ∧ (0 : Nat) ≠ 384 := by
  decide

/-- C9: `Clip::generate` on a Playing clip whose loop region is empty panics
inside `advance_position`. A clip created with `length_ticks` 0 (so
`loop_start = effective_loop_end = 0`) hits the remainder-by-zero on
`loop_length` for every window size, and a clip whose loop points were set
with start past end (`set_loop_points(30, 24)` on a length-48 clip) hits the
`u64` subtraction overflow computing `loop_end - loop_start`. -/
theorem C9_empty_loop_panics :
    (∀ ticks : Nat,
      ((Clip.new ("Z") 0).play.generate
          { GeneratorContext.default with ticks_to_generate := ticks } [] []
        = Except.error RtPanic.remZero))
    ∧ ((Clip.new ("W") 48).set_loop_points 30 24).play.generate ctx2 [] []
        = Except.error RtPanic.subOverflow := by
  constructor
  · intro ticks
    simp [Clip.new, Clip.play, Clip.generate, Clip.generate_sequenced,
      Clip.sequencedNote, Clip.advance_position, Clip.effective_loop_end,
      csub, cmod, GeneratorContext.default, List.mapM, List.mapM.loop,
      Bind.bind, Except.bind, pure, Except.pure]
  · rfl

/-- C10: every event that `Track::process_event` lets through leaves with
velocity in [1, 127] — in particular a velocity-0 input (the note-off
denotation) is never output with velocity 0, whatever `velocity_scale` and
`velocity_offset` are, because of the final `clamp(1, 127)`. -/
theorem C10_velocity_clamped (t : Track) (e e1 : MidiEvent)
    (h : t.process_event e = some e1) : 1 ≤ e1.velocity ∧ e1.velocity ≤ 127 := by
  unfold Track.process_event at h
  dsimp only at h
  split at h
  · exact Option.noConfusion h
  · split at h
    · exact Option.noConfusion h
    · have he := Option.some.inj h
      subst he
      dsimp only
      set z : Int := wrap16 (ratToI16 ((e.velocity : ℚ) * t.config.velocity_scale)
        + t.config.velocity_offset) with hz
      have h1 : (1 : Int) ≤ clampZ z 1 127 := le_max_left 1 (min z 127)
      have h2 : clampZ z 1 127 ≤ 127 :=
        max_le (by norm_num) (min_le_right z 127)
      set c : Int := clampZ z 1 127 with hc
      omega

/-- Witness for C10: the default track maps the velocity-0 event to an output
with velocity 1, inside [1, 127]. -/
theorem C10_velocity_clamped_witness :
    1 ≤ (MidiEvent.new 60 1 0 24).velocity ∧ (MidiEvent.new 60 1 0 24).velocity ≤ 127 := by
  refine C10_velocity_clamped tr0 vel0Event (MidiEvent.new 60 1 0 24) ?_
  simp [tr0, vel0Event, Track.new, TrackConfig.default, Track.process_event,
    MidiEvent.new, ratToI16, wrap16, clampZ]

/-- A heap pop returns an element of the queue together with the rest: the
popped pair re-consed is a permutation of the input. -/
theorem popMin_perm :
    ∀ (l : List ScheduledEvent) (m : ScheduledEvent) (r : List ScheduledEvent),
      popMin l = some (m, r) → List.Perm l (m :: r) := by
  intro l
  induction l with
  | nil => intro m r h; simp [popMin] at h
  | cons e rest ih =>
    intro m r h
    simp only [popMin] at h
    cases hp : popMin rest with
    | none =>
      rw [hp] at h
      cases h
      have hrest : rest = [] := by
        cases rest with
        | nil => rfl
        | cons x xs =>
          exfalso
          simp only [popMin] at hp
          cases hq : popMin xs with
          | none => rw [hq] at hp; exact Option.noConfusion hp
          | some p =>
              rw [hq] at hp
              dsimp at hp
              split at hp <;> exact Option.noConfusion hp
      subst hrest
      exact List.Perm.refl _
    | some p =>
      obtain ⟨m1, rest1⟩ := p
      rw [hp] at h
      dsimp at h
      split at h
      · cases h
        exact List.Perm.refl _
      · cases h
        exact ((ih m rest1 hp).cons e).trans (List.Perm.swap m e rest1)

/-- A heap pop returns an element of minimal `time_micros`: it is at or below
every element left in the queue. -/
theorem popMin_min :
    ∀ (l : List ScheduledEvent) (m : ScheduledEvent) (r : List ScheduledEvent),
      popMin l = some (m, r) → ∀ x ∈ r, m.time_micros ≤ x.time_micros := by
  intro l
  induction l with
  | nil => intro m r h; simp [popMin] at h
  | cons e rest ih =>
    intro m r h
    simp only [popMin] at h
    cases hp : popMin rest with
    | none =>
      rw [hp] at h
      cases h
      intro x hx
      simp at hx
    | some p =>
      obtain ⟨m1, rest1⟩ := p
      rw [hp] at h
      dsimp at h
      split at h
      · cases h
        intro x hx
        rcases List.mem_cons.mp ((popMin_perm rest m1 rest1 hp).mem_iff.mp hx) with rfl | hx1
        · assumption
        · exact le_trans (by assumption) (ih m1 rest1 hp x hx1)
      · cases h
        intro x hx
        rcases List.mem_cons.mp hx with rfl | hx1
        · omega
        · exact ih m rest1 hp x hx1

/-- Every event the poll loop emits came from the queue it drained. -/
theorem pollLoopAux_mem :
    ∀ (fuel target : Nat) (q : List ScheduledEvent) (x : ScheduledEvent),
      x ∈ (pollLoopAux fuel target q).1 → x ∈ q := by
  intro fuel
  induction fuel with
  | zero => intro target q x hx; simp [pollLoopAux] at hx
  | succ n ih =>
    intro target q x hx
    rw [pollLoopAux] at hx
    cases hp : popMin q with
    | none => rw [hp] at hx; simp at hx
    | some p =>
      obtain ⟨m, rest⟩ := p
      rw [hp] at hx
      dsimp at hx
      split at hx
      · rcases List.mem_cons.mp hx with rfl | hx1
        · exact (popMin_perm q x rest hp).mem_iff.mpr (List.mem_cons_self x rest)
        · exact (popMin_perm q m rest hp).mem_iff.mpr
            (List.mem_cons_of_mem m (ih target rest x hx1))
      · simp at hx

/-- The poll loop emits events in nondecreasing `time_micros` order: each
iteration pops a minimum of what is left. -/
theorem pollLoopAux_pairwise :
    ∀ (fuel target : Nat) (q : List ScheduledEvent),
      List.Pairwise (fun a b => a.time_micros ≤ b.time_micros)
        (pollLoopAux fuel target q).1 := by
  intro fuel
  induction fuel with
  | zero => intro target q; simp [pollLoopAux]
  | succ n ih =>
    intro target q
    rw [pollLoopAux]
    cases hp : popMin q with
    | none => simp
    | some p =>
      obtain ⟨m, rest⟩ := p
      dsimp
      split
      · exact List.Pairwise.cons
          (fun x hx => popMin_min q m rest hp x (pollLoopAux_mem n target rest x hx))
          (ih target rest)
      · simp

/-- C2: whatever state the scheduler reached through schedule and set_tempo
calls (any state at all), the event vector returned by a single `poll()` or
`poll_window()` is nondecreasing in `time_micros`. -/
theorem C2_poll_order :
    ∀ (s : Scheduler) (now window : Nat),
      List.Pairwise (fun a b => a.time_micros ≤ b.time_micros) (s.poll now).1
      ∧ List.Pairwise (fun a b => a.time_micros ≤ b.time_micros)
          (s.poll_window window now).1 := by
  intro s now window
  constructor
  · rw [Scheduler.poll]
    split
    · simp
    · exact pollLoopAux_pairwise _ _ _
  · rw [Scheduler.poll_window]
    split
    · simp
    · exact pollLoopAux_pairwise _ _ _

/-- The event-pushing fold of `generate_scheduled` appends one NoteOn/NoteOff
pair per event to the accumulator. -/
theorem generate_scheduled_foldl (t : Track) (base : Nat) :
    ∀ (l : List MidiEvent) (acc : List ScheduledEvent),
      l.foldl (fun scheduled e =>
        let start_tick := base + e.start_tick
        let end_tick := start_tick + e.duration_ticks
        scheduled ++
          [(ScheduledEvent.note_on start_tick e.channel e.note e.velocity).with_track t.index,
           (ScheduledEvent.note_off end_tick e.channel e.note).with_track t.index]) acc
      = acc ++ l.flatMap (fun e => [pairOn t base e, pairOff t base e]) := by
  intro l
  induction l with
  | nil => intro acc; simp
  | cons e rest ih =>
    intro acc
    rw [List.foldl_cons, ih, List.flatMap_cons]
    dsimp [pairOn, pairOff]
    rw [List.append_assoc]
    rfl

/-- C4: `generate_scheduled` emits, for each event surviving the transform
pipeline with window offset `start_tick` and length `duration_ticks`, exactly
one NoteOn at `base_tick + start_tick` and one NoteOff with the same channel
and note at `base_tick + start_tick + duration_ticks`, both tagged with the
track's index; and both halves of the pair are present in its output. -/
theorem C4_noteoff_pairing :
    ∀ (t : Track) (context : GeneratorContext) (raws : List MidiEvent) (base_tick : Nat),
      t.generate_scheduled context raws base_tick =
        (t.generate context raws).flatMap
          (fun e => [pairOn t base_tick e, pairOff t base_tick e])
      ∧ ∀ e ∈ t.generate context raws,
          pairOn t base_tick e ∈ t.generate_scheduled context raws base_tick
          ∧ pairOff t base_tick e ∈ t.generate_scheduled context raws base_tick := by
  intro t context raws base_tick
  have heq := generate_scheduled_foldl t base_tick (t.generate context raws) []
  have h0 : t.generate_scheduled context raws base_tick =
      (t.generate context raws).flatMap
        (fun e => [pairOn t base_tick e, pairOff t base_tick e]) := by
    rw [Track.generate_scheduled, heq, List.nil_append]
  refine ⟨h0, fun e he => ⟨?_, ?_⟩⟩
  · rw [h0]
    exact List.mem_flatMap.2 ⟨e, he, by simp⟩
  · rw [h0]
    exact List.mem_flatMap.2 ⟨e, he, by simp⟩

/-- Witness for C4: the default track with a velocity-100 event at offset 5
and duration 24, at base tick 10: both halves of the pair are scheduled. -/
theorem C4_noteoff_pairing_witness :
    pairOn tr0 10 rawEvent ∈ tr0.generate_scheduled GeneratorContext.default [rawEvent] 10
    ∧ pairOff tr0 10 rawEvent ∈ tr0.generate_scheduled GeneratorContext.default [rawEvent] 10 := by
  refine (C4_noteoff_pairing tr0 GeneratorContext.default [rawEvent] 10).2 rawEvent ?_
  have h : tr0.generate GeneratorContext.default [rawEvent] = [rawEvent] := by
    simp [tr0, rawEvent, Track.new, TrackConfig.default, Track.generate,
      Track.process_event, Track.apply_swing, MidiEvent.new, ratToI16, wrap16,
      clampZ, GeneratorContext.default]
  rw [h]
  exact List.mem_singleton.2 rfl

/-- C5 counterexample: in the reachable state `staleMgr` — two tracks, track 0
made Soloed through `track_mut` + `Track::set_state` (one of the mutation
paths the claim admits) — some track is Soloed, yet `should_output(1)` is
true while track 1 is Active, refuting `should_output(i) = true` iff
`track[i].state = Soloed`. The cached `has_solo` flag is stale because the
`track_mut` path never calls `update_solo_state`. -/
theorem C5_solo_cache_counterexample :
    (∃ t ∈ staleMgr.tracks, t.state = TrackState.Soloed)
    ∧ staleMgr.should_output 1 = true
    ∧ (staleMgr.tracks.get? 1).map Track.state = some TrackState.Active := by
  decide

/-- One manager-level operation preserves the solo-cache coherence
`has_solo = tracks.any is_soloed`. -/
theorem soloInv_apply (m : TrackManager) (op : MgrOp)
    (h : m.has_solo = m.tracks.any Track.is_soloed) :
    (MgrOp.apply m op).has_solo = (MgrOp.apply m op).tracks.any Track.is_soloed := by
  cases op with
  | addTrack cfg =>
      simp [MgrOp.apply, TrackManager.add_track, List.any_append, h,
        Track.new, Track.is_soloed]
  | setTrackState i st =>
      simp only [MgrOp.apply, TrackManager.set_track_state]
      cases hg : m.tracks.get? i with
      | none => simpa using h
      | some t => simp [TrackManager.update_solo_state]
  | toggleMute i =>
      simp only [MgrOp.apply, TrackManager.toggle_mute]
      cases hg : m.tracks.get? i with
      | none => simpa using h
      | some t => simp [TrackManager.update_solo_state]
  | toggleSolo i =>
      simp only [MgrOp.apply, TrackManager.toggle_solo]
      cases hg : m.tracks.get? i with
      | none => simpa using h
      | some t => simp [TrackManager.update_solo_state]

/-- Every state reached from `new` through the manager-level API has a
coherent solo cache. -/
theorem soloInv_run (ops : List MgrOp) :
    (TrackManager.run ops).has_solo = (TrackManager.run ops).tracks.any Track.is_soloed := by
  rw [TrackManager.run]
  suffices h : ∀ (m : TrackManager), m.has_solo = m.tracks.any Track.is_soloed →
      (ops.foldl MgrOp.apply m).has_solo =
        (ops.foldl MgrOp.apply m).tracks.any Track.is_soloed by
    exact h TrackManager.new rfl
  induction ops with
  | nil => intro m hm; exact hm
  | cons op rest ih =>
      intro m hm
      exact ih (MgrOp.apply m op) (soloInv_apply m op hm)

/-- C5 as amended: when every state mutation goes through the manager-level
API (`set_track_state`, `toggle_solo`, `toggle_mute` — the paths that refresh
the cached solo flag; `track_mut` + `Track::set_state` excluded), then in any
reachable state with some Soloed track, `should_output(i)` is true exactly
for the Soloed tracks, and otherwise exactly for the non-Muted tracks. -/
theorem C5_solo_exclusivity_amended :
    ∀ (ops : List MgrOp) (i : Nat) (t : Track),
      (TrackManager.run ops).tracks.get? i = some t →
      ((∃ u ∈ (TrackManager.run ops).tracks, u.state = TrackState.Soloed) →
        ((TrackManager.run ops).should_output i = true ↔ t.state = TrackState.Soloed))
      ∧ ((∀ u ∈ (TrackManager.run ops).tracks, u.state ≠ TrackState.Soloed) →
        ((TrackManager.run ops).should_output i = true ↔ t.state ≠ TrackState.Muted)) := by
  intro ops i t hget
  have hinv := soloInv_run ops
  constructor
  · rintro ⟨u, hu, hus⟩
    have hany : (TrackManager.run ops).tracks.any Track.is_soloed = true :=
      List.any_eq_true.2 ⟨u, hu, by simp [Track.is_soloed, hus]⟩
    simp only [TrackManager.should_output, hget, hinv, hany]
    cases ht : t.state <;> simp [Track.is_muted, Track.is_soloed, ht]
  · intro hall
    have hany : (TrackManager.run ops).tracks.any Track.is_soloed = false := by
      rw [List.any_eq_false]
      intro u hu
      simp [Track.is_soloed, hall u hu]
    simp only [TrackManager.should_output, hget, hinv, hany]
    cases ht : t.state <;> simp [Track.is_muted, Track.is_soloed, ht]

/-- Witness for C5 as amended: two tracks added and track 0 soloed through
the manager API; track 1 is Active, so it must not output. -/
theorem C5_solo_exclusivity_amended_witness :
    (TrackManager.run soloOps).should_output 1 = true ↔
      (Track.new 1 TrackConfig.default).state = TrackState.Soloed := by
  exact (C5_solo_exclusivity_amended soloOps 1 (Track.new 1 TrackConfig.default)
    (by decide)).1 (by decide)

/-- Flattening `n` copies of a singleton block gives `n` copies of its
element. -/
theorem flatten_replicate_singleton (n : Nat) (b : Bool) :
    (List.replicate n [b]).flatten = List.replicate n b := by
  induction n with
  | zero => rfl
  | succ k ih => simp [List.replicate, ih]

/-- Reassociating an append to exchange the last two chunks is a
permutation. -/
theorem perm_append_swap_right (A B C : List Bool) :
    List.Perm ((A ++ B) ++ C) ((A ++ C) ++ B) := by
  rw [List.append_assoc, List.append_assoc]
  exact List.Perm.append_left A List.perm_append_comm

/-- Pairwise concatenation of two block lists of equal length preserves the
flattened contents up to permutation. -/
theorem flatten_zipWith_append_perm :
    ∀ (a b : List (List Bool)), a.length = b.length →
      List.Perm (List.zipWith (fun x y => x ++ y) a b).flatten
        (a.flatten ++ b.flatten) := by
  intro a
  induction a with
  | nil =>
    intro b h
    have : b = [] := by
      cases b with
      | nil => rfl
      | cons y ys => simp at h
    subst this
    simp
  | cons x xs ih =>
    intro b h
    cases b with
    | nil => simp at h
    | cons y ys =>
      have hlen : xs.length = ys.length := by simpa using h
      simp only [List.zipWith_cons_cons, List.flatten_cons]
      refine (List.Perm.append_left (x ++ y) (ih ys hlen)).trans ?_
      rw [List.append_assoc x y, List.append_assoc x xs.flatten]
      refine List.Perm.append_left x ?_
      rw [← List.append_assoc y, ← List.append_assoc xs.flatten]
      exact List.perm_append_comm.append_right ys.flatten

/-- Every iteration of the Bjorklund block loop preserves the flattened
contents of pattern-plus-remainder up to permutation, for any fuel. -/
theorem bjorklundLoop_perm :
    ∀ (fuel : Nat) (p r : List (List Bool)),
      List.Perm ((bjorklundLoop fuel p r).1.flatten ++ (bjorklundLoop fuel p r).2.flatten)
        (p.flatten ++ r.flatten) := by
  intro fuel
  induction fuel with
  | zero => intro p r; rw [bjorklundLoop]
  | succ n ih =>
    intro p r
    rw [bjorklundLoop]
    by_cases hr : 1 < r.length
    · rw [if_pos hr]
      dsimp only
      by_cases hp : min p.length r.length < p.length
      · rw [if_pos hp]
        have hm : min p.length r.length = r.length := by omega
        have hlen : (p.take (min p.length r.length)).length =
            (r.take (min p.length r.length)).length := by
          rw [List.length_take, List.length_take]
          omega
        refine (ih _ _).trans ?_
        have hz := flatten_zipWith_append_perm
          (p.take (min p.length r.length)) (r.take (min p.length r.length)) hlen
        refine ((hz.append_right _).trans ?_)
        have hrt : r.take (min p.length r.length) = r := by
          rw [hm, List.take_length]
        rw [hrt]
        refine (perm_append_swap_right _ _ _).trans ?_
        rw [← List.flatten_append, List.take_append_drop]
      · rw [if_neg hp]
        have hm : min p.length r.length = p.length := by omega
        have hlen : (p.take (min p.length r.length)).length =
            (r.take (min p.length r.length)).length := by
          rw [List.length_take, List.length_take]
          omega
        refine (ih _ _).trans ?_
        have hz := flatten_zipWith_append_perm
          (p.take (min p.length r.length)) (r.take (min p.length r.length)) hlen
        refine ((hz.append_right _).trans ?_)
        have hpt : p.take (min p.length r.length) = p := by
          rw [hm, List.take_length]
        rw [hpt, List.append_assoc, ← List.flatten_append, List.take_append_drop]
    · rw [if_neg hr]

/-- C8: for every pair `(hits, steps)`, `generate_euclidean` returns a
boolean vector of length `steps` containing exactly `min hits steps` true
entries. -/
theorem C8_bjorklund_cardinality :
    ∀ (hits steps : Nat),
      (generate_euclidean hits steps).length = steps
      ∧ (generate_euclidean hits steps).count true = min hits steps := by
  intro hits steps
  unfold generate_euclidean
  by_cases h0 : steps = 0
  · rw [if_pos h0]
    constructor
    · simp [h0]
    · simp [h0]
  · rw [if_neg h0]
    by_cases h1 : steps ≤ hits
    · rw [if_pos h1]
      constructor
      · simp
      · simp [List.count_replicate]
        omega
    · rw [if_neg h1]
      by_cases h2 : hits = 0
      · rw [if_pos h2]
        constructor
        · simp
        · simp [List.count_replicate, h2]
      · rw [if_neg h2]
        dsimp only
        have hperm := bjorklundLoop_perm steps (List.replicate hits [true])
          (List.replicate (steps - hits) [false])
        rw [flatten_replicate_singleton, flatten_replicate_singleton] at hperm
        constructor
        · rw [hperm.length_eq, List.length_append, List.length_replicate,
            List.length_replicate]
          omega
        · rw [hperm.count_eq true, List.count_append, List.count_replicate,
            List.count_replicate]
          simp
          omega

end Seq
